import Mathlib

set_option autoImplicit false

/-
  Verification development for the jubatest harness core
  (src/lib/jubatest/entity.py and src/lib/jubatest/process.py).

  The Python classes are shallowly embedded as Lean structures with
  explicit state passing: each method becomes a function from the old
  state (plus oracle inputs standing for the outside world, such as RPC
  replies or OS signal delivery) to the new state together with the
  normal result or the raised exception.
-/

namespace Jubatest

/-- Exceptions of the harness: JubaSkipTest and JubaTestFixtureFailedError
    come from unit.py, JubaTestAssertionError from exceptions.py.
    attributeError stands for the Python built-in AttributeError that is
    hit when a method is called on a None reference, and osError for the
    built-in OSError with its errno. -/
inductive PyErr where
  | jubaSkipTest (msg : String)
  | jubaTestAssertionError (msg : String)
  | jubaTestFixtureFailedError (msg : String)
  | attributeError
  | osError (errno : Int)
  deriving Repr, DecidableEq

/-! ## JubaNode port pool (entity.py, class JubaNode)

    _ports holds the owned ports as configured; _free_ports starts as a
    copy of _ports and is the only mutable part. Host name, workdir and
    environment overlay play no role in the port-pool claims and are
    omitted from the state. -/

/-- Port-pool state of a JubaNode. -/
structure NodeState where
  ports : List Nat
  freePorts : List Nat
  deriving Repr, DecidableEq

/-- JubaNode.__init__: _free_ports = copy.copy(ports). -/
def initNode (ports : List Nat) : NodeState :=
  { ports := ports, freePorts := ports }

/-- JubaNode.lease_port: raises JubaSkipTest when the pool is empty,
    otherwise pops and returns the FRONT of _free_ports. -/
def lease_port (s : NodeState) : Except PyErr (Nat × NodeState) :=
  match s.freePorts with
  | [] => .error (.jubaSkipTest "insufficient number of ports")
  | p :: rest => .ok (p, { s with freePorts := rest })

/-- JubaNode.free_port: appends the port to the back of _free_ports when
    it is owned and not currently free; raises JubaTestAssertionError on a
    double free or a foreign port. The state component of the result is
    the pool after the call: a raise happens before any mutation, so on
    error it is the unchanged input state. -/
def free_port (s : NodeState) (p : Nat) : NodeState × Option PyErr :=
  if p ∈ s.ports then
    if p ∉ s.freePorts then
      ({ s with freePorts := s.freePorts ++ [p] }, none)
    else
      (s, some (.jubaTestAssertionError "double free detected"))
  else
    (s, some (.jubaTestAssertionError "port is not a member port"))

/-- JubaNode.ports_used: len(_ports) - len(_free_ports). -/
def ports_used (s : NodeState) : Nat :=
  s.ports.length - s.freePorts.length

/-- The leased ports are the owned ports that are not free; the code
    stores no separate leased set, so this is the derived notion the
    invariant claims speak about. -/
def leasedPorts (s : NodeState) : List Nat :=
  s.ports.filter (fun p => decide (p ∉ s.freePorts))

/-- One step of a lease/free trace against a node. -/
inductive PortOp where
  | lease
  | free (p : Nat)
  deriving Repr, DecidableEq

/-- Runs a trace of port operations; none when some call raises. -/
def runOps (s : NodeState) : List PortOp → Option NodeState
  | [] => some s
  | PortOp.lease :: ops =>
    match lease_port s with
    | .error _ => none
    | .ok (_, s1) => runOps s1 ops
  | PortOp.free p :: ops =>
    match free_port s p with
    | (_, some _) => none
    | (s1, none) => runOps s1 ops

def isLease : PortOp → Bool
  | .lease => true
  | .free _ => false

def countLease (ops : List PortOp) : Nat :=
  (ops.filter isLease).length

def countFree (ops : List PortOp) : Nat :=
  (ops.filter (fun o => !isLease o)).length

/-- The pool invariant maintained by lease_port/free_port: the free list
    has no duplicates and only owned ports. -/
def FreeInv (s : NodeState) : Prop :=
  s.freePorts.Nodup ∧ ∀ p ∈ s.freePorts, p ∈ s.ports

/-! ## LocalSubprocess (process.py)

    _process is some () while a Popen handle is attached; in this
    single-threaded model an attached process stays alive until a harness
    call detaches it. stdout/stderr stay none until communicate()
    finalizes them. -/

structure LocalSubprocess where
  args : List String
  stdout : Option String
  stderr : Option String
  process : Option Unit
  deriving Repr, DecidableEq

/-- LocalSubprocess.__init__. -/
def LocalSubprocess.init (args : List String) : LocalSubprocess :=
  { args := args, stdout := none, stderr := none, process := none }

/-- LocalSubprocess.start: raises JubaTestFixtureFailedError when a
    process is already attached, otherwise spawns one. -/
def LocalSubprocess.start (s : LocalSubprocess) : Except PyErr LocalSubprocess :=
  match s.process with
  | some _ => .error (.jubaTestFixtureFailedError "cannot start again using same instance")
  | none => .ok { s with process := some () }

/-- Outcome of delivering the stop signal (Popen.terminate or
    Popen.kill): the OS call either succeeds or raises OSError with some
    errno. ESRCH is raised when the process exited between the liveness
    check and the signal. -/
inductive SigDelivery where
  | delivered
  | osError (errno : Int)
  deriving Repr, DecidableEq

/-- errno.ESRCH, no such process. -/
def ESRCH : Int := 3

/-- LocalSubprocess.stop: raises when no process is attached; otherwise
    delivers the signal, swallowing an ESRCH OSError and re-raising any
    other OSError; the finally block runs communicate() and clears
    _process in each of those cases, so the state component is finalized
    whenever a process was attached, even when the OSError propagates.
    captured is the (stdout, stderr) pair communicate collects. -/
def LocalSubprocess.stop (s : LocalSubprocess) (kill : Bool) (sig : SigDelivery)
    (captured : String × String) : LocalSubprocess × Option PyErr :=
  match s.process with
  | none => (s, some (.jubaTestFixtureFailedError "this instance has not been started yet"))
  | some _ =>
    let s1 : LocalSubprocess :=
      { s with stdout := some captured.1, stderr := some captured.2, process := none }
    match kill, sig with
    | _, .delivered => (s1, none)
    | _, .osError e => if e ≠ ESRCH then (s1, some (.osError e)) else (s1, none)

/-! ## Option lists and argument flattening (entity.py) -/

/-- Value side of an option tuple: the Python option lists mix strings
    and the integer rpc port; _flatten_options applies str() to both
    components of each tuple. -/
inductive OptVal where
  | str (s : String)
  | int (n : Int)
  deriving Repr, DecidableEq

def OptVal.toStr : OptVal → String
  | .str s => s
  | .int n => toString n

abbrev Options := List (String × OptVal)

/-- Loop body of JubaRPCServer._flatten_options: seen is the set of keys
    already emitted; an option whose key was seen is squashed. -/
def flattenGo : Options → List String → List String
  | [], _ => []
  | (k, v) :: rest, seen =>
    if k ∈ seen then flattenGo rest seen
    else k :: v.toStr :: flattenGo rest (k :: seen)

/-- JubaRPCServer._flatten_options. -/
def _flatten_options (options : Options) : List String :=
  flattenGo options []

/-- First occurrence of each key, in insertion order: the specification
    view of option de-duplication, to be compared with the seen-set loop
    of the source. -/
def firstOccurrences : Options → Options
  | [] => []
  | (k, v) :: rest =>
    (k, v) :: firstOccurrences (rest.filter (fun o => decide (o.1 ≠ k)))
termination_by l => l.length
decreasing_by
  simp only [List.length_cons]
  exact Nat.lt_succ_of_le (List.length_filter_le _ _)

/-- Emits key value pairs in order, without de-duplication. -/
def renderOpts : Options → List String
  | [] => []
  | (k, v) :: rest => k :: v.toStr :: renderOpts rest

/-! ## Readiness probe (JubaRPCServer.is_ready) -/

/-- Outcome of the one-shot msgpackrpc probe call, as seen by is_ready:
    the call returns a value, or raises RPCError carrying e.args[0] as an
    integer code, or the server is unreachable (timeout or transport
    failure, which msgpackrpc raises as an RPCError subclass whose
    args[0] is a message string, never the integer 1). -/
inductive ProbeOutcome where
  | reply
  | rpcError (code : Int)
  | unreachable
  deriving Repr, DecidableEq

/-- JubaRPCServer.is_ready: any reply counts as ready; an RPCError whose
    args[0] equals 1 (no such method) also counts as ready; everything
    else, in particular an unreachable server, does not. -/
def is_ready : ProbeOutcome → Bool
  | .reply => true
  | .rpcError code => code == 1
  | .unreachable => false

/-! ## Backend process handle of a JubaRPCServer -/

/-- Modelled from the spec: the backend handle of a JubaRPCServer is an
    AsyncRemoteProcess (created by JubaNode.get_process), whose source
    file remote.py is not under src/. The spec gives every Process Handle
    the same contract (section 4.2): started once, stop terminates the
    process and finalizes the captured stdout/stderr, output populated
    only after termination. This mirrors LocalSubprocess of process.py. -/
structure Backend where
  args : List String
  stdout : Option String
  stderr : Option String
  process : Option Unit
  deriving Repr, DecidableEq

/-- Modelled from the spec: stop on the backend handle; raises when no
    process is attached, otherwise terminates it and finalizes the
    captured output. -/
def Backend.stop (b : Backend) (captured : String × String) : Backend × Option PyErr :=
  match b.process with
  | none => (b, some (.jubaTestFixtureFailedError "this instance has not been started yet"))
  | some _ =>
    ({ b with stdout := some captured.1, stderr := some captured.2, process := none }, none)

/-- Modelled from the spec: non-blocking liveness probe of the backend. -/
def Backend.is_running (b : Backend) : Bool :=
  b.process.isSome

/-! ## JubaRPCServer lifecycle (entity.py) -/

/-- State of a JubaRPCServer: the node reference is embedded as the port
    pool of its node; programName is the value the program() override of
    the concrete variant returns; logFilter is the memoized LogFilter
    (only whether it is memoized matters for the claims). -/
structure RPCServer where
  node : NodeState
  service : String
  programName : String
  options : Options
  port : Option Nat
  lastPort : Option Nat
  backend : Option Backend
  logFilter : Option Unit
  deriving Repr, DecidableEq

/-- JubaRPCServer.reset: drops the backend handle and the memoized log
    filter. -/
def RPCServer.reset (s : RPCServer) : RPCServer :=
  { s with backend := none, logFilter := none }

/-- JubaRPCServer.is_running: self._backend and self._backend.is_running(). -/
def RPCServer.is_running (s : RPCServer) : Bool :=
  match s.backend with
  | some b => b.is_running
  | none => false

/-- Argument vector JubaRPCServer.start spawns: program() followed by the
    flattened options, with the leased port appended as a trailing
    --rpc-port option before flattening. -/
def startArgs (prog : String) (opts : Options) (p : Nat) : List String :=
  prog :: _flatten_options (opts ++ [("--rpc-port", OptVal.int (Int.ofNat p))])

/-- JubaRPCServer.stop: calls stop on the backend reference (the Python
    built-in AttributeError when the reference is None), then frees the
    leased port, then clears the port field; when a step raises, the
    later statements do not run, matching the Python statement order.
    self.port is None after a previous stop, and free_port(None) raises
    the not-a-member-port assertion. -/
def RPCServer.stop (s : RPCServer) (captured : String × String) :
    RPCServer × Option PyErr :=
  match s.backend with
  | none => (s, some .attributeError)
  | some b =>
    match Backend.stop b captured with
    | (_, some e) => (s, some e)
    | (b1, none) =>
      let s1 : RPCServer := { s with backend := some b1 }
      match s1.port with
      | none => (s1, some (.jubaTestAssertionError "port is not a member port"))
      | some p =>
        match free_port s1.node p with
        | (_, some e) => (s1, some e)
        | (n1, none) => ({ s1 with node := n1, port := none }, none)

/-- JubaRPCServer.kill: raises JubaTestFixtureFailedError when the
    instance is not running; otherwise runs the same three statements as
    stop, with SIGKILL as the signal. -/
def RPCServer.kill (s : RPCServer) (captured : String × String) :
    RPCServer × Option PyErr :=
  if s.is_running then RPCServer.stop s captured
  else (s, some (.jubaTestFixtureFailedError "this instance is not running"))

/-- Readiness polling loop of JubaRPCServer.start: the delay starts at
    20000 usec and doubles after each failed attempt; the sleep happens
    before each probe. Arguments: probe oracle, current attempt index,
    remaining attempts, current delay in usec, microseconds slept so far.
    Returns the index of the first ready attempt (none when all remaining
    attempts fail) and the total microseconds slept. -/
def startPoll (probes : Nat → ProbeOutcome) : Nat → Nat → Nat → Nat → Option Nat × Nat
  | _, 0, _, slept => (none, slept)
  | i, fuel + 1, delay, slept =>
    let slept1 := slept + delay
    if is_ready (probes i) then (some i, slept1)
    else startPoll probes (i + 1) fuel (delay * 2) slept1

/-- Result of JubaRPCServer.start: the state the instance is left in,
    together with the normal return or the raised error. ok carries the
    index of the attempt whose probe succeeded and the total microseconds
    slept. errAlreadyRunning and errTimeout are the two
    JubaTestFixtureFailedError raises of start; errNoPorts is the
    JubaSkipTest propagating out of lease_port. errTimeout carries the
    backend stdout/stderr interpolated into the FixtureError message, and
    the total microseconds slept. -/
inductive StartResult where
  | ok (s : RPCServer) (attempt sleptUsec : Nat)
  | okAsync (s : RPCServer)
  | errAlreadyRunning (s : RPCServer)
  | errNoPorts (s : RPCServer)
  | errTimeout (s : RPCServer) (outMsg errMsg : Option String) (sleptUsec : Nat)
  deriving Repr, DecidableEq

/-- JubaRPCServer.start: refuses when already running; resets the
    memoized state; leases a port (the JubaSkipTest of an empty pool
    propagates); spawns the backend on the flattened argument vector with
    the leased port appended as a trailing --rpc-port option; returns at
    once when sync is false; otherwise probes is_ready up to 8 times with
    geometrically increasing sleeps, and on exhaustion stops the instance
    and raises FixtureError carrying the captured output (the raise sits
    in a finally block, so it fires even when the stop call raises).
    probes i is the outcome of the probe of attempt i; captured is the
    output communicate collects when the timeout path stops the backend. -/
def RPCServer.start (s : RPCServer) (sync : Bool) (probes : Nat → ProbeOutcome)
    (captured : String × String) : StartResult :=
  if s.is_running then .errAlreadyRunning s
  else
    let s0 := s.reset
    match lease_port s0.node with
    | .error _ => .errNoPorts s0
    | .ok (p, n1) =>
      let s1 : RPCServer := { s0 with
        node := n1
        port := some p
        lastPort := some p
        backend := some { args := startArgs s0.programName s0.options p
                          stdout := none
                          stderr := none
                          process := some () } }
      if !sync then .okAsync s1
      else
        match startPoll probes 0 8 20000 0 with
        | (some i, slept) => .ok s1 i slept
        | (none, slept) =>
          let s2 := (RPCServer.stop s1 captured).1
          let outMsg := match s2.backend with
            | some b => b.stdout
            | none => none
          let errMsg := match s2.backend with
            | some b => b.stderr
            | none => none
          .errTimeout s2 outMsg errMsg slept

/-- The instance state right after JubaRPCServer.start has spawned the
    backend: memoized state reset, the head p of the free-port queue
    leased, backend attached on the flattened argument vector and
    running. start leaves the instance in this state on the async path
    and while polling on the sync path. -/
def spawnedState (s : RPCServer) (p : Nat) (rest : List Nat) : RPCServer :=
  { s.reset with
    node := { s.node with freePorts := rest }
    port := some p
    lastPort := some p
    backend := some { args := startArgs s.programName s.options p
                      stdout := none
                      stderr := none
                      process := some () } }

/-! ## JubaProxy membership wait (entity.py) -/

/-- The view wait_for_servers takes of one expected member: get_id()
    returns its identifier, and name its cluster name. -/
structure SrvView where
  id : String
  cluster : String
  deriving Repr, DecidableEq

/-- Reply of the router to get_status(cluster): a mapping whose keys are
    the member identifiers, or an RPCError carrying e.args[0] as a
    message string. -/
inductive RouterReply where
  | ok (members : List String)
  | rpcError (msg : String)
  deriving Repr, DecidableEq

/-- JubaProxy.get_cluster_members: an RPCError whose message is exactly
    no server found followed by the cluster name becomes the empty member
    list; any other RPCError is re-raised. -/
def get_cluster_members (clusterName : String) (reply : RouterReply) :
    Except String (List String) :=
  match reply with
  | .ok members => .ok members
  | .rpcError msg =>
    if msg ≠ "no server found: " ++ clusterName then .error msg
    else .ok []

/-- Result of the inner for loop over servers of one poll: every member
    present, or the first missing member together with its cluster and
    the member list the router reported for it, or a re-raised RPCError. -/
inductive AttemptResult where
  | allPresent
  | missing (id cluster : String) (members : List String)
  | rpcFail (msg : String)
  deriving Repr, DecidableEq

/-- Inner for loop of wait_for_servers at one poll: j indexes the rpc
    calls in order. -/
def checkFrom (replies : Nat → RouterReply) : Nat → List SrvView → AttemptResult
  | _, [] => .allPresent
  | j, srv :: rest =>
    match get_cluster_members srv.cluster (replies j) with
    | .error msg => .rpcFail msg
    | .ok members =>
      if srv.id ∈ members then checkFrom replies (j + 1) rest
      else .missing srv.id srv.cluster members

/-- One poll of wait_for_servers over all expected members. -/
def checkServers (srvs : List SrvView) (replies : Nat → RouterReply) : AttemptResult :=
  checkFrom replies 0 srvs

/-- The poll schedule of wait_for_servers: sleep 0 before the first poll,
    then 1 second before each of 16 further polls; 17 polls in total. -/
def memberWaitDelays : List Nat := 0 :: List.replicate 16 1

/-- Message of the FixtureError wait_for_servers raises on timeout. The
    last-seen member list goes only to log.warning, not into the
    exception. -/
def waitError (id cluster : String) : String :=
  "wait timed-out for member " ++ id ++ " in cluster " ++ cluster

/-- Result of wait_for_servers: normal return carrying the index of the
    successful poll, or the raised FixtureError message together with the
    member list that went only to the warning log, or a re-raised
    RPCError. -/
inductive WaitResult where
  | success (attempt : Nat)
  | fixtureTimeout (raisedMsg : String) (loggedMembers : List String)
  | rpcError (msg : String)
  deriving Repr, DecidableEq

/-- Poll loop of wait_for_servers: k is the current poll index, the Nat
    argument the number of polls still allowed. The base case mirrors the
    Python initialisation of (server_id, cluster_name) to two empty
    strings; it is unreachable for the actual budget of 17. replies k j
    is the router reply to the j-th rpc call of poll k. -/
def waitGo (srvs : List SrvView) (replies : Nat → Nat → RouterReply) :
    Nat → Nat → WaitResult
  | _, 0 => .fixtureTimeout (waitError "" "") []
  | k, remaining + 1 =>
    match checkServers srvs (replies k) with
    | .allPresent => .success k
    | .rpcFail msg => .rpcError msg
    | .missing id cluster members =>
      match remaining with
      | 0 => .fixtureTimeout (waitError id cluster) members
      | r + 1 => waitGo srvs replies (k + 1) (r + 1)

/-- JubaProxy.wait_for_servers: one poll per entry of the delay schedule. -/
def wait_for_servers (srvs : List SrvView) (replies : Nat → Nat → RouterReply) :
    WaitResult :=
  waitGo srvs replies 0 memberWaitDelays.length

/-! ## Option-list aliasing (JubaServer.__init__ and
     JubaTestEnvironment.server, entity.py) -/

/-- A heap of Python list objects holding option lists; a reference is an
    index into the heap. -/
structure PyHeap where
  lists : List Options
  deriving Repr, DecidableEq

def PyHeap.get (h : PyHeap) (r : Nat) : Options :=
  h.lists.getD r []

def PyHeap.set (h : PyHeap) (r : Nat) (l : Options) : PyHeap :=
  { lists := h.lists.set r l }

/-- Allocates a fresh list object and returns its reference. -/
def PyHeap.alloc (h : PyHeap) (l : Options) : PyHeap × Nat :=
  ({ lists := h.lists ++ [l] }, h.lists.length)

/-- JubaServer.__init__ restricted to its option handling: options2 =
    options binds the SAME list object, and when a cluster name is given,
    options2 += [(--name, name)] extends that object in place; the
    returned reference, stored as the instance options, is the reference
    the caller passed in. -/
def jubaServer_init_options (h : PyHeap) (optionsRef : Nat) (name : Option String) :
    PyHeap × Nat :=
  match name with
  | some n =>
    (h.set optionsRef (h.get optionsRef ++ [("--name", OptVal.str n)]), optionsRef)
  | none => (h, optionsRef)

/-- JubaTestEnvironment.server restricted to its option handling:
    options2 = options + [datadir and zookeeper entries] allocates a NEW
    list object (binary plus on Python lists copies), which is then
    handed to JubaServer.__init__ together with the cluster name. -/
def environment_server_options (h : PyHeap) (optionsRef : Nat)
    (datadir zkargs name : String) : PyHeap × Nat :=
  let h1p := h.alloc (h.get optionsRef ++
    [("--datadir", OptVal.str datadir), ("--zookeeper", OptVal.str zkargs)])
  jubaServer_init_options h1p.1 h1p.2 (some name)

theorem runOps_ports_eq : ∀ (ops : List PortOp) (s s' : NodeState),
    runOps s ops = some s' → s'.ports = s.ports := by
  intro ops
  induction ops with
  | nil => intro s s' h; simp [runOps] at h; simp [h]
  | cons op rest ih =>
    intro s s' h
    cases op with
    | lease =>
      simp only [runOps, lease_port] at h
      cases hfp : s.freePorts with
      | nil => rw [hfp] at h; simp at h
      | cons p ps =>
        rw [hfp] at h
        simp at h
        exact (ih _ _ h).trans rfl
    | free p =>
      simp only [runOps] at h
      by_cases hmem : p ∈ s.ports
      · by_cases hfree : p ∈ s.freePorts
        · simp [free_port, hmem, hfree] at h
        · simp [free_port, hmem, hfree] at h
          exact (ih _ _ h).trans rfl
      · simp [free_port, hmem] at h

theorem runOps_inv : ∀ (ops : List PortOp) (s s' : NodeState),
    runOps s ops = some s' → FreeInv s →
    FreeInv s' ∧
      s'.freePorts.length + countLease ops = s.freePorts.length + countFree ops := by
  intro ops
  induction ops with
  | nil =>
    intro s s' h hinv
    simp [runOps] at h
    subst h
    exact ⟨hinv, by simp [countLease, countFree]⟩
  | cons op rest ih =>
    intro s s' h hinv
    cases op with
    | lease =>
      simp only [runOps, lease_port] at h
      cases hfp : s.freePorts with
      | nil => rw [hfp] at h; simp at h
      | cons p ps =>
        rw [hfp] at h
        simp at h
        have hinv1 : FreeInv { s with freePorts := ps } := by
          constructor
          · have := hinv.1; rw [hfp] at this; exact this.of_cons
          · intro q hq
            exact hinv.2 q (by rw [hfp]; exact List.mem_cons_of_mem _ hq)
        obtain ⟨hi, hlen⟩ := ih _ _ h hinv1
        refine ⟨hi, ?_⟩
        simp [countLease, countFree, isLease, hfp] at *
        omega
    | free p =>
      simp only [runOps] at h
      by_cases hmem : p ∈ s.ports
      · by_cases hfree : p ∈ s.freePorts
        · simp [free_port, hmem, hfree] at h
        · simp [free_port, hmem, hfree] at h
          have hinv1 : FreeInv { s with freePorts := s.freePorts ++ [p] } := by
            constructor
            · simp [List.nodup_append, hinv.1, hfree]
            · intro q hq
              simp at hq
              cases hq with
              | inl hq => exact hinv.2 q hq
              | inr hq => subst hq; exact hmem
          obtain ⟨hi, hlen⟩ := ih _ _ h hinv1
          refine ⟨hi, ?_⟩
          simp [countLease, countFree, isLease] at *
          omega
      · simp [free_port, hmem] at h

theorem runOps_append_some : ∀ (pre suff : List PortOp) (s : NodeState),
    (runOps s (pre ++ suff)).isSome → ∃ sm, runOps s pre = some sm := by
  intro pre
  induction pre with
  | nil => intro suff s _; exact ⟨s, rfl⟩
  | cons op rest ih =>
    intro suff s h
    cases op with
    | lease =>
      simp only [List.cons_append, runOps, lease_port] at h ⊢
      cases hfp : s.freePorts with
      | nil => rw [hfp] at h; simp at h
      | cons p ps =>
        rw [hfp] at h
        simp at h ⊢
        exact ih _ _ h
    | free p =>
      simp only [List.cons_append, runOps] at h ⊢
      by_cases hmem : p ∈ s.ports
      · by_cases hfree : p ∈ s.freePorts
        · simp [free_port, hmem, hfree] at h
        · simp [free_port, hmem, hfree] at h ⊢
          exact ih _ _ h
      · simp [free_port, hmem] at h

/-- C3: for every node and every sequence of lease_port/free_port calls in
    which each free returns a currently-leased owned port (i.e. the whole
    trace runs without raising), at every point of the trace the leased
    ports and the free ports are disjoint, their union is the owned ports,
    ports_used equals the number of leases minus the number of frees, and
    ports_used is 0 once the lease and free counts agree. -/
theorem port_pool_conservation (ports : List Nat) (ops pre suff : List PortOp)
    (hnd : ports.Nodup) (hsplit : ops = pre ++ suff)
    (hvalid : (runOps (initNode ports) ops).isSome) :
    ∃ s, runOps (initNode ports) pre = some s ∧
      s.ports = ports ∧
      (∀ p, ¬(p ∈ leasedPorts s ∧ p ∈ s.freePorts)) ∧
      (∀ p, p ∈ ports ↔ (p ∈ leasedPorts s ∨ p ∈ s.freePorts)) ∧
      countFree pre + ports_used s = countLease pre ∧
      ports_used s = countLease pre - countFree pre ∧
      (countLease pre = countFree pre → ports_used s = 0) := by
  subst hsplit
  obtain ⟨s, hs⟩ := runOps_append_some pre suff _ hvalid
  have hports : s.ports = ports := runOps_ports_eq pre _ _ hs
  have hinv0 : FreeInv (initNode ports) := ⟨hnd, fun p hp => hp⟩
  obtain ⟨⟨hndf, hsub⟩, hlen⟩ := runOps_inv pre _ _ hs hinv0
  have hsub' : ∀ p ∈ s.freePorts, p ∈ ports := by
    intro p hp; rw [← hports]; exact hsub p hp
  have hle : s.freePorts.length ≤ ports.length :=
    (List.subperm_of_subset hndf hsub').length_le
  have hlen' : s.freePorts.length + countLease pre = ports.length + countFree pre := by
    simpa [initNode] using hlen
  refine ⟨s, hs, hports, ?_, ?_, ?_, ?_, ?_⟩
  · intro p ⟨hl, hf⟩
    simp [leasedPorts] at hl
    exact hl.2 hf
  · intro p
    constructor
    · intro hp
      by_cases hf : p ∈ s.freePorts
      · exact Or.inr hf
      · exact Or.inl (by simp [leasedPorts, hports, hp, hf])
    · intro hp
      cases hp with
      | inl hl => simp [leasedPorts, hports] at hl; exact hl.1
      | inr hf => exact hsub' p hf
  · simp only [ports_used, hports]; omega
  · simp only [ports_used, hports]; omega
  · intro heq; simp only [ports_used, hports]; omega

/-- Witness for port_pool_conservation: a node owning ports 10000 and
    10001, trace lease, lease, free 10000, free 10001, split after the
    third call. -/
theorem port_pool_conservation_witness :
    ∃ s, runOps (initNode [10000, 10001]) [PortOp.lease, PortOp.lease, PortOp.free 10000]
        = some s ∧
      s.ports = [10000, 10001] ∧
      (∀ p, ¬(p ∈ leasedPorts s ∧ p ∈ s.freePorts)) ∧
      (∀ p, p ∈ [10000, 10001] ↔ (p ∈ leasedPorts s ∨ p ∈ s.freePorts)) ∧
      countFree [PortOp.lease, PortOp.lease, PortOp.free 10000] + ports_used s
        = countLease [PortOp.lease, PortOp.lease, PortOp.free 10000] ∧
      ports_used s = countLease [PortOp.lease, PortOp.lease, PortOp.free 10000]
        - countFree [PortOp.lease, PortOp.lease, PortOp.free 10000] ∧
      (countLease [PortOp.lease, PortOp.lease, PortOp.free 10000]
          = countFree [PortOp.lease, PortOp.lease, PortOp.free 10000] →
        ports_used s = 0) :=
  port_pool_conservation [10000, 10001]
    [PortOp.lease, PortOp.lease, PortOp.free 10000, PortOp.free 10001]
    [PortOp.lease, PortOp.lease, PortOp.free 10000] [PortOp.free 10001]
    (by decide) rfl (by decide)

/-- C4: freeing a port that is already free, or that the node does not
    own, fails with the invariant-violation error JubaTestAssertionError
    and leaves the pool unchanged. -/
theorem bad_free_rejected (s : NodeState) (p : Nat)
    (h : p ∉ s.ports ∨ p ∈ s.freePorts) :
    (free_port s p).1 = s ∧
      ∃ msg, (free_port s p).2 = some (PyErr.jubaTestAssertionError msg) := by
  by_cases hmem : p ∈ s.ports
  · have hfree : p ∈ s.freePorts := h.resolve_left (by simp [hmem])
    simp [free_port, hmem, hfree]
  · simp [free_port, hmem]

/-- Witness for bad_free_rejected: double free of 10000, and free of the
    foreign port 4 on a node owning 10000 only. -/
theorem bad_free_rejected_witness :
    ((free_port (initNode [10000]) 10000).1 = initNode [10000] ∧
      ∃ msg, (free_port (initNode [10000]) 10000).2
        = some (PyErr.jubaTestAssertionError msg)) ∧
    ((free_port { ports := [10000], freePorts := [] } 4).1
        = { ports := [10000], freePorts := [] } ∧
      ∃ msg, (free_port { ports := [10000], freePorts := [] } 4).2
        = some (PyErr.jubaTestAssertionError msg)) :=
  ⟨bad_free_rejected (initNode [10000]) 10000 (Or.inr (by decide)),
   bad_free_rejected { ports := [10000], freePorts := [] } 4 (Or.inl (by decide))⟩

/-- C5 counterexample: lease_port does not return the LOWEST free port.
    On a node owning the sorted ports 10000, 10001, 10002, the trace
    lease, lease, free 10000 leaves the free queue [10002, 10000]; the
    next lease_port returns 10002 even though 10000 is free and lower. -/
theorem lease_lowest_counterexample :
    runOps (initNode [10000, 10001, 10002])
        [PortOp.lease, PortOp.lease, PortOp.free 10000]
      = some { ports := [10000, 10001, 10002], freePorts := [10002, 10000] } ∧
    lease_port { ports := [10000, 10001, 10002], freePorts := [10002, 10000] }
      = .ok (10002, { ports := [10000, 10001, 10002], freePorts := [10000] }) ∧
    10000 ∈ ([10002, 10000] : List Nat) ∧ 10000 < 10002 :=
  ⟨rfl, rfl, by decide, by decide⟩

/-- C5 amended: lease_port removes and returns the FRONT of the FIFO
    free-port queue (initial owned-port order, freed ports re-queued at
    the back), which need not be the lowest free port; with an empty pool
    it fails with the test-skip error JubaSkipTest. -/
theorem lease_fifo_front (s : NodeState) :
    (∀ p rest, s.freePorts = p :: rest →
      lease_port s = .ok (p, { s with freePorts := rest })) ∧
    (s.freePorts = [] →
      lease_port s = .error (.jubaSkipTest "insufficient number of ports")) := by
  constructor
  · intro p rest h
    simp [lease_port, h]
  · intro h
    simp [lease_port, h]

/-- Witness for lease_fifo_front: the queue [7, 9] serves 7 first, and an
    exhausted pool raises the skip error. -/
theorem lease_fifo_front_witness :
    lease_port { ports := [7, 9], freePorts := [7, 9] }
      = .ok (7, { ports := [7, 9], freePorts := [9] }) ∧
    lease_port { ports := [7, 9], freePorts := [] }
      = .error (.jubaSkipTest "insufficient number of ports") :=
  ⟨(lease_fifo_front { ports := [7, 9], freePorts := [7, 9] }).1 7 [9] rfl,
   (lease_fifo_front { ports := [7, 9], freePorts := [] }).2 rfl⟩

/-- C9: for every started process handle, stop() swallows the ESRCH race
    (normal return, no error), re-raises any other OSError, and in every
    one of these cases, the swallowed race and the re-raise included, the
    finally block finalizes the captured stdout and stderr and clears the
    process reference. -/
theorem stop_signal_race (s : LocalSubprocess) (kill : Bool) (sig : SigDelivery)
    (captured : String × String) (h : s.process = some ()) :
    (LocalSubprocess.stop s kill sig captured).1
      = { s with
          stdout := some captured.1
          stderr := some captured.2
          process := none } ∧
    (sig = .osError ESRCH → (LocalSubprocess.stop s kill sig captured).2 = none) ∧
    (∀ e, e ≠ ESRCH → sig = .osError e →
      (LocalSubprocess.stop s kill sig captured).2 = some (.osError e)) ∧
    (sig = .delivered → (LocalSubprocess.stop s kill sig captured).2 = none) := by
  cases sig with
  | delivered => simp [LocalSubprocess.stop, h]
  | osError e =>
    by_cases he : e = ESRCH
    · subst he
      simp [LocalSubprocess.stop, h]
      exact fun e h1 h2 => h1 h2.symm
    · simp [LocalSubprocess.stop, h, he]

/-- Witness for stop_signal_race: a started handle hit by the ESRCH race
    returns normally with its output finalized. -/
theorem stop_signal_race_witness :
    (LocalSubprocess.stop
        { args := ["jubaclassifier"], stdout := none, stderr := none, process := some () }
        false (.osError ESRCH) ("out", "err")).1
      = { args := ["jubaclassifier"], stdout := some "out", stderr := some "err",
          process := none } ∧
    (LocalSubprocess.stop
        { args := ["jubaclassifier"], stdout := none, stderr := none, process := some () }
        false (.osError ESRCH) ("out", "err")).2 = none := by
  have h := stop_signal_race
    { args := ["jubaclassifier"], stdout := none, stderr := none, process := some () }
    false (.osError ESRCH) ("out", "err") rfl
  exact ⟨h.1, h.2.1 rfl⟩

/-- C7: starting an instance that is already running fails with
    FixtureError, and the result carries the instance state unchanged, so
    the original spawned process is unaffected; likewise the start of a
    process handle that already holds a process fails with FixtureError
    and leaves the handle unchanged. -/
theorem start_once (s : RPCServer) (ls : LocalSubprocess) (sync : Bool)
    (probes : Nat → ProbeOutcome) (captured : String × String)
    (hrun : s.is_running = true) (hproc : ls.process = some ()) :
    RPCServer.start s sync probes captured = .errAlreadyRunning s ∧
    LocalSubprocess.start ls
      = .error (.jubaTestFixtureFailedError "cannot start again using same instance") := by
  constructor
  · simp [RPCServer.start, hrun]
  · simp [LocalSubprocess.start, hproc]

/-- Witness for start_once: a concrete running server instance and a
    concrete started handle. -/
theorem start_once_witness :
    RPCServer.start
        { node := { ports := [10000], freePorts := [] }, service := "classifier",
          programName := "jubaclassifier", options := [], port := some 10000,
          lastPort := some 10000,
          backend := some { args := [], stdout := none, stderr := none, process := some () },
          logFilter := none }
        true (fun _ => ProbeOutcome.reply) ("o", "e")
      = .errAlreadyRunning
          { node := { ports := [10000], freePorts := [] }, service := "classifier",
            programName := "jubaclassifier", options := [], port := some 10000,
            lastPort := some 10000,
            backend := some { args := [], stdout := none, stderr := none, process := some () },
            logFilter := none } ∧
    LocalSubprocess.start
        { args := ["jubaclassifier"], stdout := none, stderr := none, process := some () }
      = .error (.jubaTestFixtureFailedError "cannot start again using same instance") :=
  start_once _ _ true (fun _ => ProbeOutcome.reply) ("o", "e") rfl rfl

theorem flattenGo_firstOccurrences : ∀ (opts : Options) (seen : List String),
    flattenGo opts seen
      = renderOpts (firstOccurrences (opts.filter (fun o => decide (o.1 ∉ seen)))) := by
  intro opts
  induction opts with
  | nil => intro seen; simp [flattenGo, firstOccurrences, renderOpts]
  | cons kv rest ih =>
    intro seen
    obtain ⟨k, v⟩ := kv
    by_cases hk : k ∈ seen
    · simp only [flattenGo, if_pos hk, List.filter_cons]
      simp [hk, ih]
    · have hfilter : (rest.filter (fun o => decide (o.1 ∉ seen))).filter
          (fun o => decide (o.1 ≠ k))
          = rest.filter (fun o => decide (o.1 ∉ k :: seen)) := by
        rw [List.filter_filter]
        apply List.filter_congr
        intro a _
        by_cases h1 : a.1 = k <;> by_cases h2 : a.1 ∈ seen <;> simp [h1, h2]
      simp only [flattenGo, if_neg hk, List.filter_cons]
      have hcond : decide ((k, v).1 ∉ seen) = true := by simp [hk]
      rw [if_pos hcond, firstOccurrences]
      simp [renderOpts, hfilter, ih]

theorem flattenGo_append_seen : ∀ (opts : Options) (seen : List String)
    (k : String) (v : OptVal),
    (k ∈ seen ∨ k ∈ opts.map Prod.fst) →
    flattenGo (opts ++ [(k, v)]) seen = flattenGo opts seen := by
  intro opts
  induction opts with
  | nil =>
    intro seen k v h
    have hk : k ∈ seen := by simpa using h
    simp [flattenGo, hk]
  | cons kv rest ih =>
    intro seen k v h
    obtain ⟨k1, v1⟩ := kv
    by_cases hk1 : k1 ∈ seen
    · simp only [List.cons_append, flattenGo, if_pos hk1]
      apply ih
      cases h with
      | inl hs => exact Or.inl hs
      | inr hm =>
        rcases (by simpa using hm : k = k1 ∨ k ∈ rest.map Prod.fst) with he | hr
        · exact Or.inl (he ▸ hk1)
        · exact Or.inr hr
    · have hmem2 : k ∈ k1 :: seen ∨ k ∈ rest.map Prod.fst := by
        cases h with
        | inl hs => exact Or.inl (List.mem_cons_of_mem _ hs)
        | inr hm =>
          rcases (by simpa using hm : k = k1 ∨ k ∈ rest.map Prod.fst) with he | hr
          · exact Or.inl (by simp [he])
          · exact Or.inr hr
      simp only [List.cons_append, flattenGo, if_neg hk1, List.append_eq]
      rw [ih (k1 :: seen) k v hmem2]

/-- C6: the flattened argument vector keeps only the first occurrence of
    each option key, in insertion order (it renders exactly the
    first-occurrence sublist); the literal example A 1 B 2 A 3 emits
    A 1 B 2 and never A 3; start appends the leased port as a trailing
    --rpc-port option, so when the user options already carry a
    --rpc-port key the appended pair is squashed and the spawned argument
    vector is the one of the user options alone (the earlier user value
    wins). -/
theorem option_dedup (opts : Options) (p : Nat) (prog : String) :
    _flatten_options opts = renderOpts (firstOccurrences opts) ∧
    _flatten_options [("A", OptVal.int 1), ("B", OptVal.int 2), ("A", OptVal.int 3)]
      = ["A", "1", "B", "2"] ∧
    startArgs prog opts p
      = prog :: _flatten_options (opts ++ [("--rpc-port", OptVal.int (Int.ofNat p))]) ∧
    ("--rpc-port" ∈ opts.map Prod.fst →
      startArgs prog opts p = prog :: _flatten_options opts) ∧
    (∀ (s : RPCServer) (rest : List Nat) (probes : Nat → ProbeOutcome)
        (captured : String × String),
      s.is_running = false → s.node.freePorts = p :: rest →
      RPCServer.start s false probes captured = .okAsync (spawnedState s p rest) ∧
        (spawnedState s p rest).backend
          = some { args := startArgs s.programName s.options p
                   stdout := none
                   stderr := none
                   process := some () }) := by
  refine ⟨?_, by decide, rfl, ?_, ?_⟩
  · rw [_flatten_options, flattenGo_firstOccurrences]
    congr 1
    congr 1
    apply List.filter_eq_self.2
    intro a _
    simp
  · intro hmem
    rw [startArgs, _flatten_options, _flatten_options,
      flattenGo_append_seen opts [] "--rpc-port" (OptVal.int (Int.ofNat p)) (Or.inr hmem)]
  · intro s rest probes captured hrun hfp
    obtain ⟨⟨ports, fps⟩, sv, pn, o, prt, lpt, be, lf⟩ := s
    simp only at hfp
    subst hfp
    refine ⟨?_, rfl⟩
    simp [RPCServer.start, hrun, RPCServer.reset, lease_port, spawnedState, startArgs]

/-- Witness for option_dedup: a user-supplied --rpc-port 5 wins over the
    appended leased port 9, and a concrete idle server spawns on the
    de-duplicated vector. -/
theorem option_dedup_witness :
    startArgs "jubaclassifier" [("--rpc-port", OptVal.int 5)] 9
      = "jubaclassifier" :: _flatten_options [("--rpc-port", OptVal.int 5)] ∧
    RPCServer.start
        { node := { ports := [10000], freePorts := [10000] }, service := "classifier",
          programName := "jubaclassifier", options := [], port := none, lastPort := none,
          backend := none, logFilter := none }
        false (fun _ => ProbeOutcome.reply) ("o", "e")
      = .okAsync (spawnedState
          { node := { ports := [10000], freePorts := [10000] }, service := "classifier",
            programName := "jubaclassifier", options := [], port := none, lastPort := none,
            backend := none, logFilter := none } 10000 []) :=
  ⟨((option_dedup [("--rpc-port", OptVal.int 5)] 9 "jubaclassifier").2.2.2.1
      (by decide)),
   ((option_dedup [] 10000 "x").2.2.2.2
      { node := { ports := [10000], freePorts := [10000] }, service := "classifier",
        programName := "jubaclassifier", options := [], port := none, lastPort := none,
        backend := none, logFilter := none }
      [] (fun _ => ProbeOutcome.reply) ("o", "e") rfl rfl).1⟩

theorem geomStep (slept delay e : Nat) :
    slept + delay + delay * 2 * (2 ^ e - 1) = slept + delay * (2 ^ (e + 1) - 1) := by
  have h : 1 ≤ 2 ^ e := Nat.one_le_two_pow
  obtain ⟨y, hy⟩ : ∃ y, 2 ^ e = y + 1 := ⟨2 ^ e - 1, by omega⟩
  rw [pow_succ, hy]
  have h1 : (y + 1) - 1 = y := by omega
  have h2 : (y + 1) * 2 - 1 = 2 * y + 1 := by omega
  rw [h1, h2]
  ring

theorem startPoll_all_fail (probes : Nat → ProbeOutcome) :
    ∀ (fuel i delay slept : Nat),
    (∀ j, j < fuel → is_ready (probes (i + j)) = false) →
    startPoll probes i fuel delay slept = (none, slept + delay * (2 ^ fuel - 1)) := by
  intro fuel
  induction fuel with
  | zero => intro i delay slept _; simp [startPoll]
  | succ f ih =>
    intro i delay slept h
    have h0 : is_ready (probes i) = false := by simpa using h 0 (Nat.succ_pos f)
    have hrest : ∀ j, j < f → is_ready (probes (i + 1 + j)) = false := by
      intro j hj
      have := h (j + 1) (by omega)
      simpa [show i + 1 + j = i + (j + 1) by omega] using this
    simp only [startPoll, h0, Bool.false_eq_true, if_false]
    rw [ih (i + 1) (delay * 2) (slept + delay) hrest]
    exact congrArg (Prod.mk none) (geomStep slept delay f)

theorem startPoll_first_ready (probes : Nat → ProbeOutcome) :
    ∀ (k fuel i delay slept : Nat), k < fuel →
    (∀ j, j < k → is_ready (probes (i + j)) = false) →
    is_ready (probes (i + k)) = true →
    startPoll probes i fuel delay slept
      = (some (i + k), slept + delay * (2 ^ (k + 1) - 1)) := by
  intro k
  induction k with
  | zero =>
    intro fuel i delay slept hk _ hready
    obtain ⟨f, rfl⟩ : ∃ f, fuel = f + 1 := ⟨fuel - 1, by omega⟩
    have hready0 : is_ready (probes i) = true := by simpa using hready
    simp [startPoll, hready0]
  | succ kk ih =>
    intro fuel i delay slept hk hfail hready
    obtain ⟨f, rfl⟩ : ∃ f, fuel = f + 1 := ⟨fuel - 1, by omega⟩
    have h0 : is_ready (probes i) = false := by simpa using hfail 0 (by omega)
    have hrest : ∀ j, j < kk → is_ready (probes (i + 1 + j)) = false := by
      intro j hj
      have := hfail (j + 1) (by omega)
      simpa [show i + 1 + j = i + (j + 1) by omega] using this
    have hready1 : is_ready (probes (i + 1 + kk)) = true := by
      simpa [show i + 1 + kk = i + (kk + 1) by omega] using hready
    simp only [startPoll, h0, Bool.false_eq_true, if_false]
    rw [ih f (i + 1) (delay * 2) (slept + delay) (by omega) hrest hready1]
    have hidx : i + 1 + kk = i + (kk + 1) := by omega
    rw [hidx]
    exact congrArg (Prod.mk (some (i + (kk + 1)))) (geomStep slept delay (kk + 1))

/-- C1: the synchronous readiness wait sleeps before each of up to 8
    probes, 20000 usec initially and doubling each time, 5100000 usec
    (5.1 s) in total when every attempt fails; a probe answered with the
    protocol error code 1 (no such method) classifies as ready, as does
    any ordinary reply, and an unreachable probe classifies as not
    ready; when attempt k is the first ready one, start returns normally
    having slept the geometric schedule up to k; when all 8 attempts
    fail, the instance is force-stopped (backend process terminated,
    leased port freed back to the pool, port reference cleared) and the
    FixtureError carries the captured stdout and stderr. -/
theorem readiness_wait (s : RPCServer) (p : Nat) (rest : List Nat)
    (probes : Nat → ProbeOutcome) (captured : String × String)
    (hrun : s.is_running = false) (hfp : s.node.freePorts = p :: rest)
    (hmem : p ∈ s.node.ports) (hnf : p ∉ rest) :
    (is_ready (ProbeOutcome.rpcError 1) = true ∧
      is_ready ProbeOutcome.reply = true ∧
      is_ready ProbeOutcome.unreachable = false) ∧
    (∀ k, k < 8 → (∀ j, j < k → is_ready (probes j) = false) →
      is_ready (probes k) = true →
      RPCServer.start s true probes captured
        = .ok (spawnedState s p rest) k (20000 * (2 ^ (k + 1) - 1))) ∧
    ((∀ j, j < 8 → is_ready (probes j) = false) →
      ∃ s2, RPCServer.start s true probes captured
          = .errTimeout s2 (some captured.1) (some captured.2) 5100000 ∧
        s2.is_running = false ∧
        s2.port = none ∧
        s2.node.freePorts = rest ++ [p] ∧
        ∃ b, s2.backend = some b ∧ b.process = none ∧
          b.stdout = some captured.1 ∧ b.stderr = some captured.2) := by
  obtain ⟨⟨ports, fps⟩, sv, pn, o, prt, lpt, be, lf⟩ := s
  simp only at hfp hmem
  subst hfp
  refine ⟨⟨rfl, rfl, rfl⟩, ?_, ?_⟩
  · intro k hk hfail hready
    have hpoll : startPoll probes 0 8 20000 0
        = (some k, 0 + 20000 * (2 ^ (k + 1) - 1)) := by
      have := startPoll_first_ready probes k 8 0 20000 0 hk
        (by intro j hj; simpa using hfail j hj) (by simpa using hready)
      simpa using this
    simp only [RPCServer.start, hrun, Bool.false_eq_true, if_false,
      RPCServer.reset, lease_port]
    rw [hpoll]
    simp [spawnedState, RPCServer.reset, startArgs]
  · intro hfail
    have hpoll : startPoll probes 0 8 20000 0 = (none, 5100000) := by
      have := startPoll_all_fail probes 8 0 20000 0
        (by intro j hj; simpa using hfail j hj)
      norm_num at this
      exact this
    refine ⟨{ node := { ports := ports, freePorts := rest ++ [p] }
              service := sv
              programName := pn
              options := o
              port := none
              lastPort := some p
              backend := some { args := startArgs pn o p
                                stdout := some captured.1
                                stderr := some captured.2
                                process := none }
              logFilter := none }, ?_, rfl, rfl, rfl, ⟨_, rfl, rfl, rfl, rfl⟩⟩
    simp only [RPCServer.start, hrun, Bool.false_eq_true, if_false,
      RPCServer.reset, lease_port]
    rw [hpoll]
    simp [RPCServer.stop, Backend.stop, free_port, hmem, hnf, spawnedState,
      RPCServer.reset, startArgs]

/-- Witness for readiness_wait: an idle server on a one-port node whose
    probes all come back unreachable is force-stopped with the captured
    output after 5.1 s of sleep; the same server with the no-such-method
    error at attempt 2 starts after 140000 usec of sleep. -/
theorem readiness_wait_witness :
    (∃ s2, RPCServer.start
        { node := { ports := [10000], freePorts := [10000] }, service := "classifier",
          programName := "jubaclassifier", options := [], port := none, lastPort := none,
          backend := none, logFilter := none }
        true (fun _ => ProbeOutcome.unreachable) ("captured out", "captured err")
        = .errTimeout s2 (some "captured out") (some "captured err") 5100000 ∧
      s2.is_running = false ∧
      s2.port = none ∧
      s2.node.freePorts = [] ++ [10000] ∧
      ∃ b, s2.backend = some b ∧ b.process = none ∧
        b.stdout = some "captured out" ∧ b.stderr = some "captured err") ∧
    RPCServer.start
        { node := { ports := [10000], freePorts := [10000] }, service := "classifier",
          programName := "jubaclassifier", options := [], port := none, lastPort := none,
          backend := none, logFilter := none }
        true (fun j => if j < 2 then ProbeOutcome.unreachable else ProbeOutcome.rpcError 1)
        ("o", "e")
      = .ok (spawnedState
          { node := { ports := [10000], freePorts := [10000] }, service := "classifier",
            programName := "jubaclassifier", options := [], port := none, lastPort := none,
            backend := none, logFilter := none } 10000 []) 2 (20000 * (2 ^ 3 - 1)) := by
  constructor
  · exact (readiness_wait
      { node := { ports := [10000], freePorts := [10000] }, service := "classifier",
        programName := "jubaclassifier", options := [], port := none, lastPort := none,
        backend := none, logFilter := none }
      10000 [] (fun _ => ProbeOutcome.unreachable)
      ("captured out", "captured err") rfl rfl (by decide) (by decide)).2.2
      (fun j _ => rfl)
  · exact (readiness_wait
      { node := { ports := [10000], freePorts := [10000] }, service := "classifier",
        programName := "jubaclassifier", options := [], port := none, lastPort := none,
        backend := none, logFilter := none }
      10000 []
      (fun j => if j < 2 then ProbeOutcome.unreachable else ProbeOutcome.rpcError 1)
      ("o", "e") rfl rfl (by decide) (by decide)).2.1 2 (by omega)
      (fun j hj => by interval_cases j <;> rfl) (by rfl)

/-- C8: for an instance in the Starting or Ready state (live backend
    process, leased port held), stop terminates the backend process
    finalizing its captured output, frees the leased port back to the
    node pool and clears the port reference, and kill behaves the same;
    for any instance with no active process, stop and kill both raise. -/
theorem stop_frees_port (s : RPCServer) (b : Backend) (p : Nat)
    (captured : String × String)
    (hb : s.backend = some b) (hproc : b.process = some ())
    (hport : s.port = some p) (hmem : p ∈ s.node.ports)
    (hnf : p ∉ s.node.freePorts) :
    RPCServer.stop s captured
      = ({ s with
           backend := some { b with
             stdout := some captured.1
             stderr := some captured.2
             process := none }
           node := { s.node with freePorts := s.node.freePorts ++ [p] }
           port := none }, none) ∧
    RPCServer.kill s captured = RPCServer.stop s captured ∧
    (∀ t : RPCServer, t.is_running = false →
      (RPCServer.stop t captured).2.isSome ∧ (RPCServer.kill t captured).2.isSome) := by
  obtain ⟨node, sv, pn, o, prt, lpt, be, lf⟩ := s
  obtain ⟨bargs, bout, berr, bproc⟩ := b
  simp only at hb hport hproc hmem hnf
  subst hproc
  subst hb
  subst hport
  refine ⟨?_, ?_, ?_⟩
  · simp [RPCServer.stop, Backend.stop, free_port, hmem, hnf]
  · simp [RPCServer.kill, RPCServer.is_running, Backend.is_running]
  · intro t hrun
    obtain ⟨tn, tsv, tpn, to2, tprt, tlpt, tbe, tlf⟩ := t
    cases tbe with
    | none => simp [RPCServer.stop, RPCServer.kill, RPCServer.is_running]
    | some tb =>
      obtain ⟨a1, a2, a3, a4⟩ := tb
      cases a4 with
      | none =>
        simp [RPCServer.stop, Backend.stop, RPCServer.kill, RPCServer.is_running,
          Backend.is_running]
      | some u =>
        exfalso
        simp [RPCServer.is_running, Backend.is_running] at hrun

/-- Witness for stop_frees_port: stopping a concrete running instance on
    a one-port node frees 10000 back into the pool and finalizes the
    captured output. -/
theorem stop_frees_port_witness :
    RPCServer.stop
        { node := { ports := [10000], freePorts := [] }, service := "classifier",
          programName := "jubaclassifier", options := [], port := some 10000,
          lastPort := some 10000,
          backend := some { args := ["jubaclassifier"], stdout := none, stderr := none, process := some () },
          logFilter := none } ("o", "e")
      = ({ node := { ports := [10000], freePorts := [10000] }, service := "classifier",
           programName := "jubaclassifier", options := [], port := none,
           lastPort := some 10000,
           backend := some { args := ["jubaclassifier"], stdout := some "o", stderr := some "e", process := none },
           logFilter := none }, none) ∧
    RPCServer.kill
        { node := { ports := [10000], freePorts := [] }, service := "classifier",
          programName := "jubaclassifier", options := [], port := some 10000,
          lastPort := some 10000,
          backend := some { args := ["jubaclassifier"], stdout := none, stderr := none, process := some () },
          logFilter := none } ("o", "e")
      = RPCServer.stop
          { node := { ports := [10000], freePorts := [] }, service := "classifier",
            programName := "jubaclassifier", options := [], port := some 10000,
            lastPort := some 10000,
            backend := some { args := ["jubaclassifier"], stdout := none, stderr := none, process := some () },
            logFilter := none } ("o", "e") ∧
    (∀ t : RPCServer, t.is_running = false →
      (RPCServer.stop t ("o", "e")).2.isSome ∧ (RPCServer.kill t ("o", "e")).2.isSome) :=
  stop_frees_port
    { node := { ports := [10000], freePorts := [] }, service := "classifier",
      programName := "jubaclassifier", options := [], port := some 10000,
      lastPort := some 10000,
      backend := some { args := ["jubaclassifier"], stdout := none, stderr := none, process := some () },
      logFilter := none }
    { args := ["jubaclassifier"], stdout := none, stderr := none, process := some () }
    10000 ("o", "e") rfl rfl rfl (by decide) (by decide)

theorem waitGo_step (srvs : List SrvView) (replies : Nat → Nat → RouterReply)
    (k r : Nat) :
    waitGo srvs replies k (r + 1)
      = match checkServers srvs (replies k) with
        | .allPresent => .success k
        | .rpcFail msg => .rpcError msg
        | .missing id cluster members =>
          match r with
          | 0 => .fixtureTimeout (waitError id cluster) members
          | rr + 1 => waitGo srvs replies (k + 1) (rr + 1) := by
  rw [waitGo]

theorem waitGo_timeout (srvs : List SrvView) (replies : Nat → Nat → RouterReply) :
    ∀ (n k : Nat), 0 < n →
    (∀ j, j < n → ∃ id cl ms, checkServers srvs (replies (k + j)) = .missing id cl ms) →
    ∀ id cl ms, checkServers srvs (replies (k + n - 1)) = .missing id cl ms →
    waitGo srvs replies k n = .fixtureTimeout (waitError id cl) ms := by
  intro n
  induction n with
  | zero => intro k h; omega
  | succ m ih =>
    intro k _ hall id cl ms hlast
    cases m with
    | zero =>
      have h0 : checkServers srvs (replies k) = .missing id cl ms := by
        simpa using hlast
      rw [waitGo_step, h0]
    | succ mm =>
      obtain ⟨id0, cl0, ms0, h0⟩ := hall 0 (by omega)
      rw [show k + 0 = k from rfl] at h0
      rw [waitGo_step, h0]
      exact ih (k + 1) (by omega)
        (fun j hj => by
          have := hall (j + 1) (by omega)
          simpa [show k + 1 + j = k + (j + 1) from by omega] using this)
        id cl ms
        (by
          have heq : k + 1 + (mm + 1) - 1 = k + (mm + 1 + 1) - 1 := by omega
          rw [heq]
          exact hlast)

theorem waitGo_success (srvs : List SrvView) (replies : Nat → Nat → RouterReply) :
    ∀ (i n k : Nat), i < n →
    (∀ j, j < i → ∃ id cl ms, checkServers srvs (replies (k + j)) = .missing id cl ms) →
    checkServers srvs (replies (k + i)) = .allPresent →
    waitGo srvs replies k n = .success (k + i) := by
  intro i
  induction i with
  | zero =>
    intro n k hn _ hap
    obtain ⟨m, rfl⟩ : ∃ m, n = m + 1 := ⟨n - 1, by omega⟩
    have hap0 : checkServers srvs (replies k) = .allPresent := by simpa using hap
    rw [waitGo_step, hap0]
    simp
  | succ ii ih =>
    intro n k hn hall hap
    obtain ⟨m, rfl⟩ : ∃ m, n = m + 1 := ⟨n - 1, by omega⟩
    obtain ⟨mm, rfl⟩ : ∃ mm, m = mm + 1 := ⟨m - 1, by omega⟩
    obtain ⟨id0, cl0, ms0, h0⟩ := hall 0 (by omega)
    rw [show k + 0 = k from rfl] at h0
    rw [waitGo_step, h0]
    have hres := ih (mm + 1) (k + 1) (by omega)
      (fun j hj => by
        have := hall (j + 1) (by omega)
        simpa [show k + 1 + j = k + (j + 1) from by omega] using this)
      (by simpa [show k + 1 + ii = k + (ii + 1) from by omega] using hap)
    simpa [show k + 1 + ii = k + (ii + 1) from by omega] using hres

/-- C2 counterexample: the FixtureError raised after the 17 failed polls
    does not name the last-seen member set. Two runs whose routers report
    different member sets on every poll raise the very same FixtureError
    message; only the warning log distinguishes them. -/
theorem membership_error_counterexample :
    wait_for_servers [{ id := "a_1", cluster := "c" }] (fun _ _ => .ok [])
      = .fixtureTimeout "wait timed-out for member a_1 in cluster c" [] ∧
    wait_for_servers [{ id := "a_1", cluster := "c" }] (fun _ _ => .ok ["b_2"])
      = .fixtureTimeout "wait timed-out for member a_1 in cluster c" ["b_2"] ∧
    ([] : List String) ≠ ["b_2"] :=
  ⟨rfl, rfl, by decide⟩

/-- C2 amended: the membership wait polls once immediately and then once
    per second for up to 16 more attempts, 17 polls in total; it returns
    normally at the first poll that finds every expected member
    registered; after the 17th failed poll it raises FixtureError naming
    the missing member and its cluster (the last-seen member set is only
    written to the warning log); and a router reply meaning no server
    found is treated as an empty member set rather than an error. -/
theorem membership_wait (srvs : List SrvView) (replies : Nat → Nat → RouterReply)
    (c : String) :
    memberWaitDelays.length = 17 ∧
    memberWaitDelays.sum = 16 ∧
    get_cluster_members c (.rpcError ("no server found: " ++ c)) = .ok [] ∧
    (∀ i, i < 17 →
      (∀ j, j < i → ∃ id cl ms, checkServers srvs (replies j) = .missing id cl ms) →
      checkServers srvs (replies i) = .allPresent →
      wait_for_servers srvs replies = .success i) ∧
    ((∀ j, j < 17 → ∃ id cl ms, checkServers srvs (replies j) = .missing id cl ms) →
      ∀ id cl ms, checkServers srvs (replies 16) = .missing id cl ms →
      wait_for_servers srvs replies = .fixtureTimeout (waitError id cl) ms) := by
  refine ⟨by decide, by decide, ?_, ?_, ?_⟩
  · simp [get_cluster_members]
  · intro i hi hall hap
    have hres := waitGo_success srvs replies i 17 0 (by omega)
      (fun j hj => by simpa using hall j hj) (by simpa using hap)
    simpa [wait_for_servers, show memberWaitDelays.length = 17 from by decide]
      using hres
  · intro hall id cl ms hlast
    have hres := waitGo_timeout srvs replies 17 0 (by omega)
      (fun j hj => by simpa using hall j hj) id cl ms (by simpa using hlast)
    simpa [wait_for_servers, show memberWaitDelays.length = 17 from by decide]
      using hres

/-- Witness for membership_wait: one expected member that registers at
    poll 3 succeeds; a router that keeps answering no-server-found makes
    all 17 polls fail and raises the timed-out FixtureError. -/
theorem membership_wait_witness :
    wait_for_servers [{ id := "a_1", cluster := "c" }]
        (fun k _ => if k < 3 then RouterReply.ok [] else RouterReply.ok ["a_1"])
      = .success 3 ∧
    wait_for_servers [{ id := "a_1", cluster := "c" }]
        (fun _ _ => RouterReply.rpcError "no server found: c")
      = .fixtureTimeout (waitError "a_1" "c") [] := by
  constructor
  · exact (membership_wait [{ id := "a_1", cluster := "c" }]
      (fun k _ => if k < 3 then RouterReply.ok [] else RouterReply.ok ["a_1"]) "c").2.2.2.1
      3 (by omega)
      (fun j hj => ⟨"a_1", "c", [], by interval_cases j <;> rfl⟩)
      (by rfl)
  · exact (membership_wait [{ id := "a_1", cluster := "c" }]
      (fun _ _ => RouterReply.rpcError "no server found: c") "c").2.2.2.2
      (fun j hj => ⟨"a_1", "c", [], rfl⟩) "a_1" "c" [] rfl

/-- C10 evidence: JubaServer.__init__ executes options2 = options and
    then options2 += [(--name, name)], which extends the caller-passed
    list object in place. A second server constructed from the same
    shared default list therefore sees the first server's --name entry,
    and since flattening keeps first occurrences, its spawned argument
    vector advertises the FIRST cluster name. JubaTestEnvironment.server,
    by contrast, hands JubaServer a fresh list built with binary plus, so
    the list its own caller passed stays unchanged. -/
theorem options_aliasing_bug :
    (jubaServer_init_options { lists := [[("--datadir", OptVal.str "/tmp")]] } 0
        (some "c1")).1.get 0
      = [("--datadir", OptVal.str "/tmp"), ("--name", OptVal.str "c1")] ∧
    _flatten_options
        ((jubaServer_init_options
          ((jubaServer_init_options { lists := [[("--datadir", OptVal.str "/tmp")]] } 0
            (some "c1")).1) 0 (some "c2")).1.get 0)
      = ["--datadir", "/tmp", "--name", "c1"] ∧
    (environment_server_options { lists := [[("X", OptVal.str "x")]] } 0 "/tmp"
        "zk:2181" "c1").1.get 0
      = [("X", OptVal.str "x")] :=
  ⟨rfl, rfl, rfl⟩

end Jubatest
